import Mathlib

/-!
Verification development for the kimi-writer agent orchestration core.

The definitions below are a shallow embedding of the Python sources:
  kimi-editor.py  (orchestrator loop, stream assembly, dispatch, budget check)
  utils.py        (token estimation interface)
  tools/reader.py (read_file_impl)
  tools/search.py (web_search_impl raises on failure)

Machine-level conventions of the embedding:
  Python `None` and absent attributes are `Option.none`; Python truthiness
  of strings is `strTruthy` below (empty string is falsy); exceptions are
  `Except.error`; ambient state (active project folder, filesystem, the
  remote estimator, the compressor in tools/compression.py which is not
  part of the examined sources) is passed explicitly as parameters.
-/

namespace KimiWriter

/-- Constants from kimi-editor.py lines 27-31. -/
def MAX_ITERATIONS : Nat := 300

/-- Hard context limit, kimi-editor.py line 28. -/
def TOKEN_LIMIT : Nat := 200000

/-- Compression trigger threshold (90 percent of the limit), kimi-editor.py line 29. -/
def COMPRESSION_THRESHOLD : Nat := 180000

/-- Backup cadence, kimi-editor.py line 31. -/
def BACKUP_INTERVAL : Nat := 10

/-- Python truthiness of an optional string: `None` and `""` are falsy. -/
def strTruthy : Option String → Bool
  | none => false
  | some s => !s.isEmpty

/-- A finalized tool call as reconstructed at the end of a streamed turn
(kimi-editor.py lines 693-713): `type` is always the constant `"function"`
and is omitted here. -/
structure ToolCall where
  id : String
  name : String
  arguments : String
deriving Repr, DecidableEq

/-- One conversation message, the dictionary form produced by
`convert_message_for_api` (kimi-editor.py lines 114-163) and by the
tool-result append at lines 778-784.  A field that is `none` stands for a
key absent from the dictionary. -/
structure Msg where
  role : String
  content : Option String := none
  reasoning_content : Option String := none
  tool_calls : Option (List ToolCall) := none
  tool_call_id : Option String := none
  name : Option String := none
deriving Repr, DecidableEq

/-- The ad hoc object rebuilt from the accumulated stream
(class `ReconstructedMessage`, kimi-editor.py lines 676-715). -/
structure ReconstructedMessage where
  role : String
  content : Option String
  reasoning_content : Option String
  tool_calls : Option (List ToolCall)
deriving Repr, DecidableEq

/-- In-progress tool-call builder slot (kimi-editor.py lines 618-624). -/
structure ToolCallBuilder where
  id : Option String := none
  name : String := ""
  arguments : String := ""
  chars_received : Nat := 0
deriving Repr, DecidableEq

/-- The `function` part of a streamed tool-call delta. -/
structure FunctionDelta where
  name : Option String := none
  arguments : Option String := none
deriving Repr, DecidableEq

/-- One streamed tool-call delta, tagged with the slot index the model
assigned to the call (kimi-editor.py lines 614-651). -/
structure ToolCallDelta where
  index : Nat
  id : Option String := none
  function : FunctionDelta := {}
deriving Repr, DecidableEq

/-- One streamed delta (`chunk.choices[0].delta`). -/
structure Delta where
  role : Option String := none
  content : Option String := none
  reasoning_content : Option String := none
  tool_calls : List ToolCallDelta := []
deriving Repr, DecidableEq

/-- One choice of a streamed chunk. -/
structure Choice where
  delta : Delta := {}
  finish_reason : Option String := none
deriving Repr, DecidableEq

/-- One streamed chunk (kimi-editor.py lines 577-582). -/
structure Chunk where
  choices : List Choice := []
deriving Repr, DecidableEq

/-- Mutable accumulation state of the streaming loop
(kimi-editor.py lines 563-574): the header flags and `last_tool_index`
only drive console printing but are threaded state, so they are kept. -/
structure StreamState where
  role : Option String := none
  reasoning_content : String := ""
  content_text : String := ""
  tool_calls_data : List ToolCallBuilder := []
  finish_reason : Option String := none
  reasoning_header_printed : Bool := false
  content_header_printed : Bool := false
  tool_call_header_printed : Bool := false
  last_tool_index : Int := -1
deriving Repr, DecidableEq

/-- Initial accumulator state at the start of a streamed turn. -/
def initStreamState : StreamState := {}

/-- Extend a builder list with default slots until its length exceeds `n - 1`,
mirroring the `while len(tool_calls_data) <= tc_delta.index` loop
(kimi-editor.py lines 617-625). -/
def padTo (l : List ToolCallBuilder) (n : Nat) : List ToolCallBuilder :=
  l ++ List.replicate (n - l.length) ({} : ToolCallBuilder)

/-- Apply `f` to the element at position `i`, leaving the list unchanged
when `i` is out of range. -/
def listModify {α : Type} : List α → Nat → (α → α) → List α
  | [], _, _ => []
  | a :: l, 0, f => f a :: l
  | a :: l, n + 1, f => a :: listModify l n f

/-- Process one streamed tool-call delta (kimi-editor.py lines 615-664):
pad the slot list, update the header-printing bookkeeping, then merge the
delta into its slot (id assignment, name assignment, argument append). -/
def processToolCallDelta (s : StreamState) (d : ToolCallDelta) : StreamState :=
  let data := padTo s.tool_calls_data (d.index + 1)
  let newHeader : Bool × Int :=
    if (d.index : Int) ≠ s.last_tool_index then
      if strTruthy d.function.name then (true, (d.index : Int))
      else (s.tool_call_header_printed, s.last_tool_index)
    else (s.tool_call_header_printed, s.last_tool_index)
  let data := listModify data d.index (fun tc =>
    let tc := if strTruthy d.id then { tc with id := d.id } else tc
    let tc :=
      if strTruthy d.function.name then { tc with name := d.function.name.getD "" }
      else tc
    match d.function.arguments with
    | some a =>
        if a.isEmpty then tc
        else { tc with arguments := tc.arguments ++ a,
                       chars_received := tc.chars_received + a.length }
    | none => tc)
  { s with tool_calls_data := data,
           tool_call_header_printed := newHeader.1,
           last_tool_index := newHeader.2 }

/-- Role step of chunk processing (kimi-editor.py lines 585-586). -/
def stepRole (s : StreamState) (d : Delta) : StreamState :=
  if strTruthy d.role then { s with role := d.role } else s

/-- Reasoning-delta step of chunk processing (kimi-editor.py lines
589-597, console printing elided). -/
def stepReasoning (s : StreamState) (d : Delta) : StreamState :=
  match d.reasoning_content with
  | some r =>
      if r.isEmpty then s
      else { s with reasoning_content := s.reasoning_content ++ r,
                    reasoning_header_printed := true }
  | none => s

/-- Content-delta step of chunk processing (kimi-editor.py lines 600-611,
console printing elided). -/
def stepContent (s : StreamState) (d : Delta) : StreamState :=
  match d.content with
  | some t =>
      if t.isEmpty then s
      else { s with content_text := s.content_text ++ t,
                    content_header_printed := true }
  | none => s

/-- Process one streamed chunk (body of the `for chunk in stream` loop,
kimi-editor.py lines 577-664, console printing elided): a chunk with no
choices is skipped; otherwise the first choice's finish reason and delta
are consumed in source order — role, reasoning delta, content delta, then
the tool-call deltas. -/
def processChunk (s : StreamState) (c : Chunk) : StreamState :=
  match c.choices with
  | [] => s
  | choice :: _ =>
    let s := { s with finish_reason := choice.finish_reason }
    let d := choice.delta
    d.tool_calls.foldl processToolCallDelta (stepContent (stepReasoning (stepRole s d) d) d)

/-- Feed a whole fragment sequence through the stream accumulator. -/
def consumeStream (s : StreamState) (chunks : List Chunk) : StreamState :=
  chunks.foldl processChunk s

/-- Derive the completed message from the accumulated state
(class `ReconstructedMessage.__init__`, kimi-editor.py lines 677-713):
empty accumulated text yields an absent field, builder slots whose id
never arrived are silently dropped, and an empty slot list yields an
absent `tool_calls`. -/
def finalizeMsg (s : StreamState) : ReconstructedMessage :=
  { role :=
      match s.role with
      | some r => if r.isEmpty then "assistant" else r
      | none => "assistant"
  , content := if s.content_text.isEmpty then none else some s.content_text
  , reasoning_content :=
      if s.reasoning_content.isEmpty then none else some s.reasoning_content
  , tool_calls :=
      if s.tool_calls_data.isEmpty then none
      else some (s.tool_calls_data.filterMap (fun tc =>
        match tc.id with
        | some i =>
            if i.isEmpty then none
            else some { id := i, name := tc.name, arguments := tc.arguments }
        | none => none)) }

/-- Conversion of a reconstructed message into its API dictionary
(`convert_message_for_api`, kimi-editor.py lines 114-163): a key is added
only when the corresponding attribute is truthy, and a reconstructed
message has no `tool_call_id` or `name` attribute. -/
def convert_message_for_api (m : ReconstructedMessage) : Msg :=
  { role := m.role
  , content :=
      match m.content with
      | some c => if c.isEmpty then none else some c
      | none => none
  , reasoning_content :=
      match m.reasoning_content with
      | some r => if r.isEmpty then none else some r
      | none => none
  , tool_calls :=
      match m.tool_calls with
      | some l => if l.isEmpty then none else some l
      | none => none
  , tool_call_id := none
  , name := none }

/-- Decoded tool arguments: the key/value payload produced by a successful
JSON parse of the accumulated argument text.  The JSON decoder itself is
library code (`json.loads`), modelled as an abstract `String → Option Args`
parameter; `[]` is the empty argument set substituted on parse failure. -/
abbrev Args : Type := List (String × String)

/-- A registered tool handler: decoded arguments to a string result, or a
raised exception carrying its text. -/
abbrev Handler : Type := Args → Except String String

/-- Result dictionary of `compress_context_impl` (tools/compression.py is
not among the examined sources; this records exactly the keys the
orchestrator reads: `compressed_messages`, `message`, `summary_file`,
`tokens_saved`, each possibly absent). -/
structure CompressionResult where
  compressed_messages : Option (List Msg) := none
  message : Option String := none
  summary_file : Option String := none
  tokens_saved : Nat := 0
deriving Repr, DecidableEq

/-- A compressor function: conversation and `keep_recent` to a result. -/
abbrev Compressor : Type := List Msg → Nat → CompressionResult

/-- The tool-role message appended for one answered tool call
(kimi-editor.py lines 778-784). -/
def toolMsg (tc : ToolCall) (result : String) : Msg :=
  { role := "tool", tool_call_id := some tc.id, name := some tc.name,
    content := some result }

/-- The dispatch loop over one turn's tool calls (kimi-editor.py lines
733-784) with the enclosing per-iteration exception handler (lines
806-809) made explicit: the returned Bool is true when a handler raised,
in which case dispatch stops at that call, nothing is appended for it (or
for later calls of the turn), and the orchestrator falls through to the
next iteration.  Argument text is decoded first, a failed parse becoming
the empty argument set (lines 737-740); an unregistered name yields the
error string of line 751; the reserved `compress_context` name invokes the
compressor directly with `keep_recent = 10` and, when the result carries
`compressed_messages`, wholesale-replaces the conversation (lines
754-766). -/
def runToolCalls (tool_map : String → Option Handler) (parse : String → Option Args)
    (compress : Compressor) (msgs : List Msg) : List ToolCall → List Msg × Bool
  | [] => (msgs, false)
  | tc :: rest =>
    let args := (parse tc.arguments).getD []
    match tool_map tc.name with
    | none =>
        let result := "Error: Unknown tool \x27" ++ tc.name ++ "\x27"
        runToolCalls tool_map parse compress (msgs ++ [toolMsg tc result]) rest
    | some f =>
        if tc.name = "compress_context" then
          let result_data := compress msgs 10
          let result := result_data.message.getD "Compression completed"
          let msgsNext := (result_data.compressed_messages).getD msgs
          runToolCalls tool_map parse compress (msgsNext ++ [toolMsg tc result]) rest
        else
          match f args with
          | Except.error _ => (msgs, true)
          | Except.ok result =>
              runToolCalls tool_map parse compress (msgs ++ [toolMsg tc result]) rest

/-- Outcome of the pre-model-call budget check. -/
structure BudgetOut where
  messages : List Msg
  token_count : Nat
  calls : List (List Msg × Nat)
deriving Repr, DecidableEq

/-- The budget check performed before each model call (kimi-editor.py
lines 502-531).  `estimate` models `estimate_token_count`, which may
raise; the whole block is wrapped in a try/except that, on any raise,
prints a warning and sets the count to 0, keeping whatever assignments
already happened.  When the first estimate reaches
`COMPRESSION_THRESHOLD`, the compressor is invoked once with
`keep_recent = 10`; the conversation is replaced only when the result
carries `compressed_messages`, after which the count is re-estimated.
`calls` records every compressor invocation (argument conversation and
`keep_recent`). -/
def budgetCheck (estimate : List Msg → Except String Nat) (compress : Compressor)
    (messages : List Msg) : BudgetOut :=
  match estimate messages with
  | Except.error _ => ⟨messages, 0, []⟩
  | Except.ok token_count =>
    if COMPRESSION_THRESHOLD ≤ token_count then
      let cr := compress messages 10
      match cr.compressed_messages with
      | some compressed =>
          match estimate compressed with
          | Except.error _ => ⟨compressed, 0, [(messages, 10)]⟩
          | Except.ok tc2 => ⟨compressed, tc2, [(messages, 10)]⟩
      | none => ⟨messages, token_count, [(messages, 10)]⟩
    else ⟨messages, token_count, []⟩

/-- Reason the agent loop stopped: the model produced a turn without tool
calls ("completed", kimi-editor.py lines 722-728), or the iteration
ceiling was exhausted ("iteration-limit", lines 811-816). -/
inductive TermReason
  | completed
  | iterationLimit
deriving Repr, DecidableEq

/-- Environment of one run of the main loop: the iteration ceiling, the
estimator, the compressor, the model stub (iteration and conversation to
the assembled assistant message), the tool registry and the argument
decoder. -/
structure LoopConfig where
  maxIterations : Nat
  estimate : List Msg → Except String Nat
  compress : Compressor
  model : Nat → List Msg → ReconstructedMessage
  tool_map : String → Option Handler
  parse : String → Option Args

/-- State threaded through loop iterations: the conversation plus audit
logs of budget-triggered compressor invocations and of periodic backup
invocations (their `keep_recent` values). -/
structure LoopState where
  messages : List Msg
  budgetCalls : List (List Msg × Nat)
  backupCalls : List Nat
deriving Repr, DecidableEq

/-- Iterations `iteration, iteration+1, ...` of the main loop
(kimi-editor.py lines 497-809), `remaining` many of them left.  Each
iteration runs the budget check, the periodic backup (a compressor call
with `keep_recent` the whole conversation length, which never alters the
conversation, lines 534-548), the model call, the append of the converted
assistant message (line 719), the no-tool-call completion branch (lines
722-728) and the dispatch loop.  Returns the final state, the value of
`iteration` after the loop, and whether the completion `break` fired. -/
def runFrom (cfg : LoopConfig) : LoopState → Nat → Nat → LoopState × Nat × Bool
  | st, iteration, 0 => (st, iteration - 1, false)
  | st, iteration, r + 1 =>
    let b := budgetCheck cfg.estimate cfg.compress st.messages
    let st : LoopState :=
      { st with messages := b.messages, budgetCalls := st.budgetCalls ++ b.calls }
    let st : LoopState :=
      if iteration % BACKUP_INTERVAL = 0 then
        { st with backupCalls := st.backupCalls ++ [st.messages.length] }
      else st
    let am := cfg.model iteration st.messages
    let st : LoopState :=
      { st with messages := st.messages ++ [convert_message_for_api am] }
    let tcs := am.tool_calls.getD []
    if tcs.isEmpty then (st, iteration, true)
    else
      let d := runToolCalls cfg.tool_map cfg.parse cfg.compress st.messages tcs
      runFrom cfg { st with messages := d.1 } (iteration + 1) r

/-- Overall outcome of one run. -/
structure LoopResult where
  reason : TermReason
  iterationsRun : Nat
  finalMessages : List Msg
  budgetCalls : List (List Msg × Nat)
  backupCalls : List Nat
  postCheckpoints : List Nat
deriving Repr, DecidableEq

/-- The whole main loop followed by the post-loop full-checkpoint attempt
(kimi-editor.py lines 497-833): after the `for` loop, when the final value
of `iteration` reached `maxIterations`, one compressor call with
`keep_recent` equal to the current conversation length is attempted
(lines 812-825); it never alters the conversation. -/
def runLoop (cfg : LoopConfig) (init : List Msg) : LoopResult :=
  let out := runFrom cfg ⟨init, [], []⟩ 1 cfg.maxIterations
  let st := out.1
  let lastIter := out.2.1
  let completed := out.2.2
  { reason := if completed then TermReason.completed else TermReason.iterationLimit
  , iterationsRun := lastIter
  , finalMessages := st.messages
  , budgetCalls := st.budgetCalls
  , backupCalls := st.backupCalls
  , postCheckpoints :=
      if cfg.maxIterations ≤ lastIter then [st.messages.length] else [] }

/-- Resolution of a filename inside `read_file_impl` (tools/reader.py
lines 25-27): a name without a dot gets the `.md` suffix. -/
def resolveName (filename : String) : String :=
  if filename.data.contains '.' then filename else filename ++ ".md"

/-- Embedding of `read_file_impl` (tools/reader.py lines 10-46).  The
ambient active-project-folder global (tools/project.py, not among the
examined sources) is the `project_folder` parameter, `none` standing for
the falsy no-active-project state; the filesystem is `fs`, mapping a path
to its content when the file exists.  The surrounding try/except returns
an error string instead of raising, so the embedding is a total function
into `String`. -/
def read_file_impl (project_folder : Option String) (fs : String → Option String)
    (filename : String) : String :=
  match project_folder with
  | none =>
      "Error: No active project folder. Please create or set a project first using create_project."
  | some folder =>
    let fname := resolveName filename
    let file_path := folder ++ "/" ++ fname
    match fs file_path with
    | none =>
        "Error: File \x27" ++ fname ++ "\x27 does not exist in the active project folder."
    | some content => content

/-- Modelled from the spec: `compress_context_impl` (tools/compression.py
is not among the examined sources).  Per spec section 4.4 the replacement
conversation keeps the first (system) message verbatim, inserts one
synthetic summary message, and ends with the most recent `keep_recent`
messages verbatim; the result dictionary carries the replacement under
`compressed_messages` together with a status message and a summary file
path. -/
def compress_context_impl (messages : List Msg) (keep_recent : Nat) : CompressionResult :=
  { compressed_messages :=
      some (messages.take 1
        ++ [{ role := "assistant", content := some "[Conversation summary]" }]
        ++ messages.drop (messages.length - keep_recent))
  , message := some "Compression completed"
  , summary_file := some "context_summary.md"
  , tokens_saved := 0 }

/-- Helper: a failing estimator makes the budget check a no-op with a zero
count and no compressor invocation. -/
lemma budgetCheck_error_eq (estimate : List Msg → Except String Nat)
    (compress : Compressor) (messages : List Msg) (e : String)
    (h : estimate messages = Except.error e) :
    budgetCheck estimate compress messages = ⟨messages, 0, []⟩ := by
  simp [budgetCheck, h]

/-- C6: feeding a turn's fragment sequence through the stream accumulator
in two sequential halves, split at any boundary, finalizes to the same
message as feeding all fragments in one pass. -/
theorem stream_split_assoc (fragments : List Chunk) (n : Nat) :
    finalizeMsg (consumeStream (consumeStream initStreamState (fragments.take n))
        (fragments.drop n))
      = finalizeMsg (consumeStream initStreamState fragments) := by
  unfold consumeStream
  rw [← List.foldl_append, List.take_append_drop]

/-- C2: whenever the pre-call estimate reaches the 180000 threshold (90
percent of the 200000 limit), the budget check invokes the compressor
exactly once, with `keep_recent = 10`, and replaces the conversation with
the compressed result before the model call. -/
theorem budget_trigger_compresses_once
    (estimate : List Msg → Except String Nat) (compress : Compressor)
    (conv m : List Msg) (n : Nat)
    (h1 : estimate conv = Except.ok n) (h2 : COMPRESSION_THRESHOLD ≤ n)
    (h3 : (compress conv 10).compressed_messages = some m) :
    (budgetCheck estimate compress conv).calls = [(conv, 10)]
      ∧ (budgetCheck estimate compress conv).messages = m
      ∧ COMPRESSION_THRESHOLD = 180000 ∧ TOKEN_LIMIT = 200000 := by
  unfold budgetCheck
  rw [h1]
  simp only [if_pos h2, h3]
  cases h4 : estimate m <;> simp [COMPRESSION_THRESHOLD, TOKEN_LIMIT]

/-- C2 witness: a synthetic estimator constantly returning 185000. -/
def estimate185 : List Msg → Except String Nat := fun _ => Except.ok 185000

/-- C2 witness instance at the empty conversation. -/
theorem budget_trigger_compresses_once_witness :
    (budgetCheck estimate185 compress_context_impl []).calls = [([], 10)]
      ∧ (budgetCheck estimate185 compress_context_impl []).messages
          = [{ role := "assistant", content := some "[Conversation summary]" }]
      ∧ COMPRESSION_THRESHOLD = 180000 ∧ TOKEN_LIMIT = 200000 :=
  budget_trigger_compresses_once estimate185 compress_context_impl []
    [{ role := "assistant", content := some "[Conversation summary]" }] 185000
    rfl (by decide) rfl

/-- Helper: with a failing estimator every loop iteration leaves the
budget-compression log untouched. -/
lemma runFrom_budgetCalls_of_fail (cfg : LoopConfig)
    (hf : ∀ ms, ∃ e, cfg.estimate ms = Except.error e) :
    ∀ (r : Nat) (st : LoopState) (i : Nat),
      (runFrom cfg st i r).1.budgetCalls = st.budgetCalls := by
  intro r
  induction r with
  | zero => intro st i; rfl
  | succ r ih =>
    intro st i
    obtain ⟨e, he⟩ := hf st.messages
    rw [runFrom]
    rw [budgetCheck_error_eq cfg.estimate cfg.compress st.messages e he]
    split <;> split <;> simp [ih]

/-- C10: a raising token estimator is caught by the budget check, which
reports a zero count, performs no compression and leaves the conversation
unchanged (the iteration then proceeds to the model call); consequently a
run whose estimator always raises never performs a budget-triggered
compression. -/
theorem estimator_failure_skips_compression :
    (∀ (estimate : List Msg → Except String Nat) (compress : Compressor)
        (messages : List Msg) (e : String),
        estimate messages = Except.error e →
        budgetCheck estimate compress messages
          = ⟨messages, 0, ([] : List (List Msg × Nat))⟩)
    ∧ (∀ (cfg : LoopConfig) (init : List Msg),
        (∀ ms, ∃ e, cfg.estimate ms = Except.error e) →
        (runLoop cfg init).budgetCalls = []) := by
  constructor
  · intro estimate compress messages e h
    exact budgetCheck_error_eq estimate compress messages e h
  · intro cfg init hf
    unfold runLoop
    simp only
    exact runFrom_budgetCalls_of_fail cfg hf cfg.maxIterations ⟨init, [], []⟩ 1

/-- C10 witness: an estimator that always raises. -/
def estimateRaise : List Msg → Except String Nat :=
  fun _ => Except.error "connection failed"

/-- C10 witness instance. -/
theorem estimator_failure_skips_compression_witness :
    budgetCheck estimateRaise compress_context_impl
        [{ role := "system", content := some "sys" }]
      = ⟨[{ role := "system", content := some "sys" }], 0, []⟩ :=
  estimator_failure_skips_compression.1 estimateRaise compress_context_impl
    [{ role := "system", content := some "sys" }] "connection failed" rfl

/-- C3 amended: dispatching a tool name absent from the registry appends a
tool-role message whose content is the string
`Error: Unknown tool '<name>'` (with the `Error: ` prefix), does not
raise, and the dispatch loop continues with the remaining calls. -/
theorem unknown_tool_yields_error_string
    (tool_map : String → Option Handler) (parse : String → Option Args)
    (compress : Compressor) (msgs : List Msg) (tc : ToolCall) (rest : List ToolCall)
    (h : tool_map tc.name = none) :
    runToolCalls tool_map parse compress msgs (tc :: rest)
      = runToolCalls tool_map parse compress
          (msgs ++ [toolMsg tc ("Error: Unknown tool \x27" ++ tc.name ++ "\x27")]) rest
      ∧ (toolMsg tc ("Error: Unknown tool \x27" ++ tc.name ++ "\x27")).content
          = some ("Error: Unknown tool \x27" ++ tc.name ++ "\x27")
      ∧ (toolMsg tc ("Error: Unknown tool \x27" ++ tc.name ++ "\x27")).role = "tool" := by
  refine ⟨?_, rfl, rfl⟩
  simp [runToolCalls, h]

/-- Registry stub with no registered tools. -/
def tmNone : String → Option Handler := fun _ => none

/-- Argument decoder stub that always succeeds with the empty set. -/
def parseEmpty : String → Option Args := fun _ => some []

/-- Compressor stub returning an empty result dictionary. -/
def compressNop : Compressor := fun _ _ => {}

/-- The `nonexistent_tool` call of the C3 scenario. -/
def tcNonexistent : ToolCall := ⟨"call_c3", "nonexistent_tool", "\x7b\x7d"⟩

/-- C3 counterexample: at the spec scenario input the dispatch result is
`Error: Unknown tool 'nonexistent_tool'`, which differs from the claimed
`Unknown tool 'nonexistent_tool'`. -/
theorem unknown_tool_result_not_as_claimed :
    (runToolCalls tmNone parseEmpty compressNop [] [tcNonexistent]).1
        = [toolMsg tcNonexistent "Error: Unknown tool \x27nonexistent_tool\x27"]
      ∧ ((runToolCalls tmNone parseEmpty compressNop [] [tcNonexistent]).1.map
            Msg.content)
          ≠ [some "Unknown tool \x27nonexistent_tool\x27"] := by
  exact ⟨rfl, by decide⟩

/-- C3 witness instance of the amended statement. -/
theorem unknown_tool_yields_error_string_witness :
    runToolCalls tmNone parseEmpty compressNop [] [tcNonexistent]
      = ([toolMsg tcNonexistent "Error: Unknown tool \x27nonexistent_tool\x27"], false) := by
  have h := (unknown_tool_yields_error_string tmNone parseEmpty compressNop []
    tcNonexistent [] rfl).1
  simpa [runToolCalls] using h

/-- C4 amended: when a registered non-compression handler raises, the
exception propagates out of the dispatch loop: no tool-role message is
appended for that call (or any later call of the turn) and the iteration
falls through to the next one; the raised text never becomes message
content. -/
theorem handler_exception_skips_append
    (tool_map : String → Option Handler) (parse : String → Option Args)
    (compress : Compressor) (msgs : List Msg) (tc : ToolCall)
    (rest : List ToolCall) (f : Handler)
    (h1 : tool_map tc.name = some f) (h2 : ¬ tc.name = "compress_context")
    (h3 : ∃ e, f ((parse tc.arguments).getD []) = Except.error e) :
    runToolCalls tool_map parse compress msgs (tc :: rest) = (msgs, true) := by
  obtain ⟨e, he⟩ := h3
  simp [runToolCalls, h1, h2, he]

/-- Registry stub whose `web_search` handler raises, as `web_search_impl`
does on any search failure (tools/search.py lines 17-21). -/
def tmRaise : String → Option Handler :=
  fun n =>
    if n = "web_search" then some (fun _ => Except.error "Web search failed: boom")
    else none

/-- An assistant message owning one `web_search` tool call. -/
def assistantWebSearch : Msg :=
  { role := "assistant", tool_calls := some [⟨"call_c4", "web_search", "\x7b\x7d"⟩] }

/-- C4 counterexample: the raising `web_search` handler leaves the
conversation without any tool-role message; in particular the exception
text is not the content of any appended message. -/
theorem handler_exception_not_surfaced :
    runToolCalls tmRaise parseEmpty compressNop [assistantWebSearch]
        [⟨"call_c4", "web_search", "\x7b\x7d"⟩]
      = ([assistantWebSearch], true)
      ∧ ∀ mm ∈ (runToolCalls tmRaise parseEmpty compressNop [assistantWebSearch]
            [⟨"call_c4", "web_search", "\x7b\x7d"⟩]).1,
          mm.content ≠ some "Web search failed: boom" := by
  exact ⟨rfl, by decide⟩

/-- C4 witness instance of the amended statement. -/
theorem handler_exception_skips_append_witness :
    runToolCalls tmRaise parseEmpty compressNop [assistantWebSearch]
        [⟨"call_c4w", "web_search", "\x7b\x7d"⟩]
      = ([assistantWebSearch], true) :=
  handler_exception_skips_append tmRaise parseEmpty compressNop
    [assistantWebSearch] ⟨"call_c4w", "web_search", "\x7b\x7d"⟩ []
    (fun _ => Except.error "Web search failed: boom") rfl (by decide)
    ⟨"Web search failed: boom", rfl⟩

/-- C5: a tool call whose accumulated argument text fails to decode is
dispatched with the empty argument set substituted, rather than aborting
the turn with a parse error: the handler is invoked on `[]`. -/
theorem malformed_arguments_dispatch
    (tool_map : String → Option Handler) (parse : String → Option Args)
    (compress : Compressor) (msgs : List Msg) (tc : ToolCall)
    (rest : List ToolCall) (f : Handler)
    (h1 : parse tc.arguments = none)
    (h2 : tool_map tc.name = some f) (h3 : ¬ tc.name = "compress_context") :
    runToolCalls tool_map parse compress msgs (tc :: rest)
      = (match f ([] : Args) with
         | Except.error _ => (msgs, true)
         | Except.ok result =>
             runToolCalls tool_map parse compress (msgs ++ [toolMsg tc result]) rest) := by
  simp [runToolCalls, h1, h2, h3]

/-- Argument decoder stub that always fails, as `json.loads` does on the
text of the C5 scenario. -/
def parseFail : String → Option Args := fun _ => none

/-- Registry stub whose every handler returns the string `ok`. -/
def tmEcho : String → Option Handler := fun _ => some (fun _ => Except.ok "ok")

/-- The malformed-arguments call of the C5 scenario. -/
def tcMalformed : ToolCall := ⟨"call_c5", "write_file", "\x7bnot valid"⟩

/-- C5 witness instance: dispatch of the `\x7bnot valid` argument text
goes through with the empty argument set and appends the handler
result. -/
theorem malformed_arguments_dispatch_witness :
    runToolCalls tmEcho parseFail compressNop [] [tcMalformed]
      = ([toolMsg tcMalformed "ok"], false) := by
  have h := malformed_arguments_dispatch tmEcho parseFail compressNop [] tcMalformed
    [] (fun _ => Except.ok "ok") rfl rfl (by decide)
  simpa [runToolCalls] using h

/-- Helper: tool-call delta processing never touches the accumulated
content text. -/
lemma processToolCallDelta_content_text (s : StreamState) (d : ToolCallDelta) :
    (processToolCallDelta s d).content_text = s.content_text := rfl

/-- Helper: folding tool-call deltas never touches the content text. -/
lemma foldl_tcd_content_text (ds : List ToolCallDelta) (s : StreamState) :
    (ds.foldl processToolCallDelta s).content_text = s.content_text := by
  induction ds generalizing s with
  | nil => rfl
  | cons d ds ih => rw [List.foldl_cons, ih, processToolCallDelta_content_text]

/-- Helper: the role step never touches the content text. -/
lemma stepRole_content_text (s : StreamState) (d : Delta) :
    (stepRole s d).content_text = s.content_text := by
  unfold stepRole; split <;> rfl

/-- Helper: the reasoning step never touches the content text. -/
lemma stepReasoning_content_text (s : StreamState) (d : Delta) :
    (stepReasoning s d).content_text = s.content_text := by
  unfold stepReasoning
  cases d.reasoning_content with
  | none => rfl
  | some r => dsimp only; split <;> rfl

/-- Helper: a chunk with no content delta leaves the content text
unchanged. -/
lemma processChunk_content_text (s : StreamState) (c : Chunk)
    (h : ∀ ch ∈ c.choices, ch.delta.content = none) :
    (processChunk s c).content_text = s.content_text := by
  cases hc : c.choices with
  | nil => simp [processChunk, hc]
  | cons choice rest =>
    have hd : choice.delta.content = none := by
      apply h; rw [hc]; exact List.mem_cons_self _ _
    simp only [processChunk, hc]
    rw [foldl_tcd_content_text]
    unfold stepContent
    rw [hd]
    rw [stepReasoning_content_text, stepRole_content_text]

/-- Helper: a stream with no content deltas accumulates no content
text. -/
lemma consumeStream_content_text (chunks : List Chunk) (s : StreamState)
    (h : ∀ c ∈ chunks, ∀ ch ∈ c.choices, ch.delta.content = none) :
    (consumeStream s chunks).content_text = s.content_text := by
  induction chunks generalizing s with
  | nil => rfl
  | cons c cs ih =>
    have h1 : ∀ ch ∈ c.choices, ch.delta.content = none :=
      h c (List.mem_cons_self _ _)
    have h2 : ∀ c2 ∈ cs, ∀ ch ∈ c2.choices, ch.delta.content = none :=
      fun c2 hc2 => h c2 (List.mem_cons_of_mem _ hc2)
    show (List.foldl processChunk (processChunk s c) cs).content_text = _
    rw [show List.foldl processChunk (processChunk s c) cs
          = consumeStream (processChunk s c) cs from rfl]
    rw [ih (processChunk s c) h2, processChunk_content_text s c h1]

/-- C7: a streamed turn in which no content delta and no reasoning delta
ever arrived finalizes to a message whose content field is absent (not the
empty string), and the API dictionary appended to the conversation
likewise carries no content key. -/
theorem no_content_deltas_content_absent (chunks : List Chunk)
    (h : ∀ c ∈ chunks, ∀ ch ∈ c.choices,
        ch.delta.content = none ∧ ch.delta.reasoning_content = none) :
    (finalizeMsg (consumeStream initStreamState chunks)).content = none
      ∧ (convert_message_for_api
          (finalizeMsg (consumeStream initStreamState chunks))).content = none := by
  have hc : (consumeStream initStreamState chunks).content_text = "" :=
    consumeStream_content_text chunks initStreamState
      (fun c hcm ch hch => (h c hcm ch hch).1)
  constructor
  · simp only [finalizeMsg]
    rw [hc]
    rfl
  · simp only [convert_message_for_api, finalizeMsg]
    rw [hc]
    rfl

/-- C7 witness: one fragment carrying only a role marker and a tool-call
delta, which finalizes with an absent content field. -/
def chunksC7 : List Chunk :=
  [⟨[⟨⟨some "assistant", none, none,
        [⟨0, some "call_c7", ⟨some "list_files", some "\x7b\x7d"⟩⟩]⟩,
      some "tool_calls"⟩]⟩]

/-- C7 witness instance. -/
theorem no_content_deltas_content_absent_witness :
    (finalizeMsg (consumeStream initStreamState chunksC7)).content = none
      ∧ (convert_message_for_api
          (finalizeMsg (consumeStream initStreamState chunksC7))).content = none :=
  no_content_deltas_content_absent chunksC7 (by decide)

/-- Helper: with a model stub that always requests a tool call, the loop
never takes the completion break and always exhausts its iteration
budget. -/
lemma runFrom_never_completes (cfg : LoopConfig)
    (hm : ∀ i msgs, ((cfg.model i msgs).tool_calls.getD []).isEmpty = false) :
    ∀ (r i : Nat) (st : LoopState),
      (runFrom cfg st i r).2 = (i + r - 1, false) := by
  intro r
  induction r with
  | zero => intro i st; rfl
  | succ r ih =>
    intro i st
    rw [runFrom]
    simp only [hm, Bool.false_eq_true, if_false]
    have h2 : i + 1 + r - 1 = i + (r + 1) - 1 := by omega
    rw [← h2]
    split <;> rw [ih]

/-- C8: when the model never produces a turn without tool calls, the run
stops with the iteration-limit reason after exactly `maxIterations`
iterations and then attempts exactly one full checkpoint, a compression
whose `keep_recent` equals the final conversation length. -/
theorem iteration_ceiling (cfg : LoopConfig) (init : List Msg)
    (h1 : 1 ≤ cfg.maxIterations)
    (hm : ∀ i msgs, ((cfg.model i msgs).tool_calls.getD []).isEmpty = false) :
    (runLoop cfg init).reason = TermReason.iterationLimit
      ∧ (runLoop cfg init).iterationsRun = cfg.maxIterations
      ∧ (runLoop cfg init).postCheckpoints
          = [(runLoop cfg init).finalMessages.length] := by
  have h := runFrom_never_completes cfg hm cfg.maxIterations 1 ⟨init, [], []⟩
  refine ⟨?_, ?_, ?_⟩
  · simp [runLoop, h]
  · simp [runLoop, h]
  · simp [runLoop, h]

/-- C8 witness: model stub that always requests one `list_files` call. -/
def modelStubC8 : Nat → List Msg → ReconstructedMessage := fun _ _ =>
  { role := "assistant", content := none, reasoning_content := none,
    tool_calls := some [⟨"call_c8", "list_files", "\x7b\x7d"⟩] }

/-- C8 witness configuration: ceiling of 3 iterations. -/
def cfgC8 : LoopConfig :=
  { maxIterations := 3
  , estimate := fun _ => Except.ok 1000
  , compress := compress_context_impl
  , model := modelStubC8
  , tool_map := fun _ => some (fun _ => Except.ok "ok")
  , parse := fun _ => some [] }

/-- C8 witness instance. -/
theorem iteration_ceiling_witness :
    (runLoop cfgC8 []).reason = TermReason.iterationLimit
      ∧ (runLoop cfgC8 []).iterationsRun = cfgC8.maxIterations
      ∧ (runLoop cfgC8 []).postCheckpoints
          = [(runLoop cfgC8 []).finalMessages.length] :=
  iteration_ceiling cfgC8 [] (by decide) (fun i msgs => rfl)

/-- One step of the pairing parser over a conversation.  The state is
`none` when the pairing invariant is already broken, and `some pending`
when the conversation so far is well paired except that the tool calls in
`pending` (from the last assistant turn, in emission order) still await
their tool-role answers.  A tool-role message is legal only when it
answers the first pending call (matching `tool_call_id`); any other
message is legal only when nothing is pending, and it opens the pending
list of its own `tool_calls`. -/
def pairStep : Option (List ToolCall) → Msg → Option (List ToolCall)
  | none, _ => none
  | some [], m =>
      if m.role = "tool" then none
      else some (m.tool_calls.getD [])
  | some (tc :: tcs), m =>
      if m.role = "tool" ∧ m.tool_call_id = some tc.id then some tcs else none

/-- Pairing state at the end of a conversation: `some []` means every
tool-role message immediately follows (possibly after sibling tool-role
messages of the same turn) an assistant message whose `tool_calls`
contains the ToolCall with the matching id, in order, and every ToolCall
has received exactly one tool-role answer. -/
def pairState (ms : List Msg) : Option (List ToolCall) :=
  ms.foldl pairStep (some [])

/-- Helper: pairing state after appending one message. -/
lemma pairState_append (ms : List Msg) (m : Msg) :
    pairState (ms ++ [m]) = pairStep (pairState ms) m := by
  rw [pairState, pairState, List.foldl_append]
  rfl

/-- Helper: appending the tool-role answer of the first pending call
consumes exactly that call. -/
lemma pairState_append_tool (ms : List Msg) (tc : ToolCall)
    (rest : List ToolCall) (r : String)
    (h : pairState ms = some (tc :: rest)) :
    pairState (ms ++ [toolMsg tc r]) = some rest := by
  rw [pairState_append, h]
  simp [pairStep, toolMsg]

/-- Helper: dispatching a turn's pending tool calls restores full pairing
when no invoked handler raises and the compressor preserves the pairing
state (as a spec-4.4-conforming compressor does: the retained tail is
verbatim and the summarized/retained boundary never splits a
tool-call/tool-result pair). -/
lemma runToolCalls_pairState (tool_map : String → Option Handler)
    (parse : String → Option Args) (compress : Compressor)
    (h_handlers : ∀ nm f, tool_map nm = some f →
        ∀ args, ∃ r, f args = Except.ok r)
    (h_compress : ∀ ms k ms2 tcs, pairState ms = some tcs →
        (compress ms k).compressed_messages = some ms2 →
        pairState ms2 = some tcs) :
    ∀ (tcs : List ToolCall) (msgs : List Msg), pairState msgs = some tcs →
      (runToolCalls tool_map parse compress msgs tcs).2 = false
      ∧ pairState (runToolCalls tool_map parse compress msgs tcs).1 = some [] := by
  intro tcs
  induction tcs with
  | nil => intro msgs h; exact ⟨rfl, h⟩
  | cons tc rest ih =>
    intro msgs h
    cases htm : tool_map tc.name with
    | none =>
        have h2 := ih (msgs ++ [toolMsg tc ("Error: Unknown tool \x27" ++ tc.name ++ "\x27")])
          (pairState_append_tool msgs tc rest _ h)
        simpa [runToolCalls, htm] using h2
    | some f =>
        by_cases hcc : tc.name = "compress_context"
        · have htm2 : tool_map "compress_context" = some f := by
            rw [← hcc]; exact htm
          cases hcm : (compress msgs 10).compressed_messages with
          | none =>
              have h2 := ih
                (msgs ++ [toolMsg tc ((compress msgs 10).message.getD "Compression completed")])
                (pairState_append_tool msgs tc rest _ h)
              simpa [runToolCalls, htm2, hcc, hcm] using h2
          | some m2 =>
              have hm2 : pairState m2 = some (tc :: rest) :=
                h_compress msgs 10 m2 (tc :: rest) h hcm
              have h2 := ih
                (m2 ++ [toolMsg tc ((compress msgs 10).message.getD "Compression completed")])
                (pairState_append_tool m2 tc rest _ hm2)
              simpa [runToolCalls, htm2, hcc, hcm] using h2
        · obtain ⟨r, hr⟩ := h_handlers tc.name f htm ((parse tc.arguments).getD [])
          have h2 := ih (msgs ++ [toolMsg tc r]) (pairState_append_tool msgs tc rest r h)
          simpa [runToolCalls, htm, hcc, hr] using h2

/-- Helper: the API conversion does not change the (defaulted) tool-call
list of the assembled message. -/
lemma convert_tool_calls_getD (m : ReconstructedMessage) :
    ((convert_message_for_api m).tool_calls.getD []) = m.tool_calls.getD [] := by
  cases h : m.tool_calls with
  | none => simp [convert_message_for_api, h]
  | some l => cases l <;> simp [convert_message_for_api, h]

/-- Helper: the budget check preserves the pairing state when the
compressor does. -/
lemma budgetCheck_pairState (estimate : List Msg → Except String Nat)
    (compress : Compressor) (ms : List Msg) (tcs : List ToolCall)
    (h_compress : ∀ ms1 k ms2 tcs1, pairState ms1 = some tcs1 →
        (compress ms1 k).compressed_messages = some ms2 →
        pairState ms2 = some tcs1)
    (h : pairState ms = some tcs) :
    pairState (budgetCheck estimate compress ms).messages = some tcs := by
  unfold budgetCheck
  cases h1 : estimate ms with
  | error e => exact h
  | ok n =>
    dsimp only
    split
    · split
      · rename_i m2 hm2eq
        have hm2 : pairState m2 = some tcs := h_compress ms 10 m2 tcs h hm2eq
        split <;> exact hm2
      · exact h
    · exact h

/-- Helper: every iteration of the loop preserves full pairing of the
conversation, assuming handlers never raise, the compressor preserves the
pairing state, and the model emits assistant-role turns. -/
lemma runFrom_pairState (cfg : LoopConfig)
    (h_handlers : ∀ nm f, cfg.tool_map nm = some f →
        ∀ args, ∃ r, f args = Except.ok r)
    (h_compress : ∀ ms k ms2 tcs, pairState ms = some tcs →
        (cfg.compress ms k).compressed_messages = some ms2 →
        pairState ms2 = some tcs)
    (h_roles : ∀ i msgs, (cfg.model i msgs).role = "assistant") :
    ∀ (r i : Nat) (st : LoopState), pairState st.messages = some [] →
      pairState (runFrom cfg st i r).1.messages = some [] := by
  intro r
  induction r with
  | zero => intro i st h; exact h
  | succ r ih =>
    intro i st h
    have hb : pairState (budgetCheck cfg.estimate cfg.compress st.messages).messages
        = some [] :=
      budgetCheck_pairState cfg.estimate cfg.compress st.messages [] h_compress h
    rw [runFrom]
    split <;>
    · set ms1 := (budgetCheck cfg.estimate cfg.compress st.messages).messages with hms1
      have hap : pairState (ms1 ++ [convert_message_for_api (cfg.model i ms1)])
          = some ((cfg.model i ms1).tool_calls.getD []) := by
        rw [pairState_append, hb, pairStep]
        have hr1 : (convert_message_for_api (cfg.model i ms1)).role = "assistant" := by
          rw [convert_message_for_api]
          exact h_roles i ms1
        rw [if_neg (by rw [hr1]; intro hcon; exact absurd hcon (by decide))]
        rw [convert_tool_calls_getD]
      split
      · rename_i hEmpty
        rw [List.isEmpty_iff] at hEmpty
        simpa [hEmpty] using hap
      · rename_i hEmpty
        apply ih
        have hd := runToolCalls_pairState cfg.tool_map cfg.parse cfg.compress
          h_handlers h_compress ((cfg.model i ms1).tool_calls.getD [])
          (ms1 ++ [convert_message_for_api (cfg.model i ms1)]) hap
        exact hd.2

/-- C1 amended (proved part): for every run of the orchestrator loop in
which no registered tool handler raises (handlers return their string
normally), the model emits assistant-role turns, and the compressor —
absent from the examined sources, so constrained as spec section 4.4
requires — preserves the conversation's pairing state, every conversation
the loop produces is fully paired: each tool-role message immediately
follows (possibly after sibling tool-role messages of the same turn) an
assistant message whose `tool_calls` contains the ToolCall with the
matching id, and every ToolCall of an appended assistant message receives
exactly one tool-role answer before the next model call (first conjunct:
after dispatching a turn's pending calls nothing remains pending; second
conjunct: the final conversation of the whole run is fully paired).  When
a handler raises the invariant fails — see the counterexample. -/
theorem tool_call_pairing (cfg : LoopConfig) (init : List Msg)
    (h_handlers : ∀ nm f, cfg.tool_map nm = some f →
        ∀ args, ∃ r, f args = Except.ok r)
    (h_compress : ∀ ms k ms2 tcs, pairState ms = some tcs →
        (cfg.compress ms k).compressed_messages = some ms2 →
        pairState ms2 = some tcs)
    (h_roles : ∀ i msgs, (cfg.model i msgs).role = "assistant") :
    (∀ (msgs : List Msg) (tcs : List ToolCall), pairState msgs = some tcs →
        (runToolCalls cfg.tool_map cfg.parse cfg.compress msgs tcs).2 = false
        ∧ pairState (runToolCalls cfg.tool_map cfg.parse cfg.compress msgs tcs).1
            = some [])
    ∧ (pairState init = some [] →
        pairState (runLoop cfg init).finalMessages = some []) := by
  constructor
  · intro msgs tcs h
    exact runToolCalls_pairState cfg.tool_map cfg.parse cfg.compress
      h_handlers h_compress tcs msgs h
  · intro hinit
    exact runFrom_pairState cfg h_handlers h_compress h_roles
      cfg.maxIterations 1 ⟨init, [], []⟩ hinit

/-- C1 witness registry: every name resolves to a handler returning
`files`. -/
def tmListOk : String → Option Handler := fun _ => some (fun _ => Except.ok "files")

/-- C1 witness model stub: always requests one `list_files` call. -/
def modelStubPair : Nat → List Msg → ReconstructedMessage := fun _ _ =>
  { role := "assistant", content := none, reasoning_content := none,
    tool_calls := some [⟨"call_p1", "list_files", "\x7b\x7d"⟩] }

/-- C1 witness configuration: two iterations, estimator below threshold,
no-op compressor, never-raising registry. -/
def cfgPair : LoopConfig :=
  { maxIterations := 2
  , estimate := fun _ => Except.ok 1000
  , compress := compressNop
  , model := modelStubPair
  , tool_map := tmListOk
  , parse := parseEmpty }

/-- C1 witness instance: a concrete two-iteration run whose final
conversation is fully paired, and a concrete dispatch of one pending call
that leaves nothing pending. -/
theorem tool_call_pairing_witness :
    pairState (runLoop cfgPair
        [{ role := "system", content := some "sys" }]).finalMessages = some []
      ∧ (runToolCalls cfgPair.tool_map cfgPair.parse cfgPair.compress
          [{ role := "assistant",
             tool_calls := some [⟨"call_p2", "list_files", "\x7b\x7d"⟩] }]
          [⟨"call_p2", "list_files", "\x7b\x7d"⟩]).2 = false := by
  have hH : ∀ nm f, cfgPair.tool_map nm = some f →
      ∀ args, ∃ r, f args = Except.ok r := by
    intro nm f hf args
    injection hf with h2
    exact ⟨"files", by rw [← h2]⟩
  have hC : ∀ ms k ms2 tcs, pairState ms = some tcs →
      (cfgPair.compress ms k).compressed_messages = some ms2 →
      pairState ms2 = some tcs := by
    intro ms k ms2 tcs h1 h2
    exact Option.noConfusion h2
  have h := tool_call_pairing cfgPair [{ role := "system", content := some "sys" }]
    hH hC (fun i msgs => rfl)
  exact ⟨h.2 (by decide),
    (h.1 [{ role := "assistant",
            tool_calls := some [⟨"call_p2", "list_files", "\x7b\x7d"⟩] }]
        [⟨"call_p2", "list_files", "\x7b\x7d"⟩] (by decide)).1⟩

/-- C1 counterexample registry: `web_search` raises, as `web_search_impl`
does on any failure. -/
def tmRaiseC1 : String → Option Handler :=
  fun n =>
    if n = "web_search" then
      some (fun _ => Except.error "Web search failed: timeout")
    else none

/-- C1 counterexample assistant message with one `web_search` call. -/
def assistantC1 : Msg :=
  { role := "assistant", tool_calls := some [⟨"call_c1x", "web_search", "\x7b\x7d"⟩] }

/-- C1 counterexample: when the `web_search` handler raises, the dispatch
appends no tool-role message at all, so the ToolCall `call_c1x` of the
appended assistant message has no corresponding tool-role message before
the next model call — the invariant claimed to hold "including when a tool
handler raises" fails. -/
theorem dangling_tool_call_on_handler_exception :
    runToolCalls tmRaiseC1 parseEmpty compressNop [assistantC1]
        [⟨"call_c1x", "web_search", "\x7b\x7d"⟩]
      = ([assistantC1], true)
      ∧ ((runToolCalls tmRaiseC1 parseEmpty compressNop [assistantC1]
            [⟨"call_c1x", "web_search", "\x7b\x7d"⟩]).1.filter
          (fun mm => mm.tool_call_id == some "call_c1x")).length = 0 := by
  exact ⟨rfl, by decide⟩

/-- C9: `read_file_impl` resolves a dotless filename by appending `.md`
(so reading `chapter` behaves identically to reading `chapter.md`), and on
every input it returns a string rather than raising: the file content on
success, an error string when there is no active project folder or the
file does not exist. -/
theorem read_file_impl_spec (project_folder : Option String)
    (fs : String → Option String) (filename : String) :
    (filename.data.contains '.' = false →
        read_file_impl project_folder fs filename
          = read_file_impl project_folder fs (filename ++ ".md"))
      ∧ (project_folder = none →
          read_file_impl project_folder fs filename
            = "Error: No active project folder. Please create or set a project first using create_project.")
      ∧ (∀ folder, project_folder = some folder →
          fs (folder ++ "/" ++ resolveName filename) = none →
          read_file_impl project_folder fs filename
            = "Error: File \x27" ++ resolveName filename
                ++ "\x27 does not exist in the active project folder.")
      ∧ (∀ folder content, project_folder = some folder →
          fs (folder ++ "/" ++ resolveName filename) = some content →
          read_file_impl project_folder fs filename = content) := by
  refine ⟨?_, ?_, ?_, ?_⟩
  · intro h
    have h1 : resolveName filename = filename ++ ".md" := by
      unfold resolveName
      rw [h]
      rfl
    have hmd : (".md").data = ['.', 'm', 'd'] := rfl
    have h2 : resolveName (filename ++ ".md") = filename ++ ".md" := by
      have hcontains : (filename ++ ".md").data.contains '.' = true := by
        rw [String.data_append, hmd]; simp
      unfold resolveName
      rw [hcontains]
      rfl
    cases project_folder with
    | none => rfl
    | some folder => simp [read_file_impl, h1, h2]
  · intro h; subst h; rfl
  · intro folder hpf hfs; subst hpf; simp [read_file_impl, hfs]
  · intro folder content hpf hfs; subst hpf; simp [read_file_impl, hfs]

/-- C9 witness filesystem: only `output/proj/chapter.md` exists. -/
def fsC9 : String → Option String :=
  fun p => if p = "output/proj/chapter.md" then some "Chapter one text" else none

/-- C9 witness instance: reading `chapter` equals reading `chapter.md`,
and both return the file content. -/
theorem read_file_impl_spec_witness :
    read_file_impl (some "output/proj") fsC9 "chapter"
        = read_file_impl (some "output/proj") fsC9 "chapter.md"
      ∧ read_file_impl (some "output/proj") fsC9 "chapter" = "Chapter one text" := by
  refine ⟨(read_file_impl_spec (some "output/proj") fsC9 "chapter").1 (by decide), ?_⟩
  exact (read_file_impl_spec (some "output/proj") fsC9 "chapter").2.2.2
    "output/proj" "Chapter one text" rfl (by decide)

end KimiWriter
